import Mathlib

/-!
Shallow embedding of the video-clip timeline editor
(`src/components/Video.tsx`) and proofs about it.

Numbers are modelled as `ℚ` (the source uses JS numbers for times and
durations), clip ids as `ℕ`, and the YouTube player bridge as a trace of
calls.  Fallible / guarded operations return their inputs unchanged, as the
source does.
-/

/-- The `Clip` record of the source (`type Clip`).  The source field `end`
is a Lean keyword and is written `«end»` here. -/
structure Clip where
  id : ℕ
  videoId : String
  title : Option String := none
  start : ℚ
  audioStart : ℚ
  audioEnd : ℚ
  «end» : ℚ
deriving DecidableEq

/-- The four time-valued fields a marker drag can update
(`updateClip(clip.id, field, value)` is only ever invoked with one of the
four marker fields of `TimelineSlider`). -/
inductive ClipField where
  | start
  | audioStart
  | audioEnd
  | endField
deriving DecidableEq

/-- `{ ...clip, [field]: value }` restricted to the four time fields. -/
def setField (c : Clip) (f : ClipField) (v : ℚ) : Clip :=
  match f with
  | ClipField.start => { c with start := v }
  | ClipField.audioStart => { c with audioStart := v }
  | ClipField.audioEnd => { c with audioEnd := v }
  | ClipField.endField => { c with «end» := v }

/-- `updateClip` of the source: map over the collection, replacing the field
on the clip whose id matches. -/
def updateClip (clips : List Clip) (clipId : ℕ) (f : ClipField) (v : ℚ) :
    List Clip :=
  clips.map (fun c => if c.id = clipId then setField c f v else c)

/-- `deleteClip` of the source: filter out the clip whose id matches. -/
def deleteClip (clips : List Clip) (clipId : ℕ) : List Clip :=
  clips.filter (fun c => c.id ≠ clipId)

/-- JS `String.prototype.trim`: strip leading and trailing whitespace,
modelled directly on the string's character list. -/
def jsTrim (s : String) : String :=
  String.mk
    (((s.data.dropWhile Char.isWhitespace).reverse.dropWhile
        Char.isWhitespace).reverse)

/-- The title actually stored by `confirmClip`: starts as
`"Untitled Video"`, replaced by `data.title` only when that is truthy
(present and non-empty).  `lookup` is the `title` field of the lookup
response, `none` on network/parse failure or a missing field. -/
def resolveTitle (lookup : Option String) : String :=
  match lookup with
  | some t => if t ≠ "" then t else "Untitled Video"
  | none => "Untitled Video"

/-- `confirmClip` of the source, with the asynchronous title lookup passed
in as its result (`Option String`).  Returns the new ordered collection and
the new draft state. -/
def confirmClip (clips : List Clip) (draft : Option Clip)
    (lookup : Option String) : List Clip × Option Clip :=
  match draft with
  | some d =>
      if jsTrim d.videoId ≠ "" then
        (clips ++ [{ d with title := some (resolveTitle lookup) }], none)
      else
        (clips, draft)
  | none => (clips, draft)

/-- `startDraft` of the source: declines on an empty / whitespace-only
video id, otherwise creates the draft with the fixed initial marker values.
`now` stands for `Date.now()`. -/
def startDraft (videoId : String) (now : ℕ) : Option Clip :=
  if videoId = "" ∨ jsTrim videoId = "" then none
  else
    some { id := now, videoId := jsTrim videoId, title := none,
           start := 0, audioStart := 2, audioEnd := 8, «end» := 10 }

/-! ### Timeline slider geometry (`TimelineSlider`) -/

/-- `viewRange = max / timelineZoom` with `max = videoDuration`. -/
def viewRange (videoDuration zoom : ℚ) : ℚ := videoDuration / zoom

/-- `rangeStart` of `TimelineSlider`:
`Math.min(Math.max(0, center - viewRange / 2), max - viewRange)` with
`center = (clip.start + clip.end) / 2`. -/
def rangeStart (videoDuration zoom start endT : ℚ) : ℚ :=
  let vr := viewRange videoDuration zoom
  let center := (start + endT) / 2
  min (max 0 (center - vr / 2)) (videoDuration - vr)

/-- Forward geometry map: `x = ((clip[field] - rangeStart) / viewRange) * width`. -/
def markerX (t rs vr w : ℚ) : ℚ := ((t - rs) / vr) * w

/-- `parseFloat(q.toFixed(2))`: rounding to two decimals, ties towards the
larger value as `toFixed` specifies. -/
def round2 (q : ℚ) : ℚ := ((⌊q * 100 + 1 / 2⌋ : ℤ) : ℚ) / 100

/-- Inverse geometry map used by the drag handler:
`rangeStart + (data.x / width) * viewRange`, rounded to two decimals. -/
def dragToTime (x w rs vr : ℚ) : ℚ := round2 (rs + (x / w) * vr)

/-! ### Reordering (`handleDragEnd` and dnd-kit's `arrayMove`) -/

/-- JS `Array.prototype.findIndex`: index of the first match, `-1` if none. -/
def jsFindIndex (p : Clip → Bool) : List Clip → Int
  | [] => -1
  | c :: rest =>
      if p c then 0
      else if jsFindIndex p rest = -1 then -1 else jsFindIndex p rest + 1

/-- JS `splice` start-index normalisation: a negative index counts from the
end (clamped at 0), a non-negative one is clamped at the length. -/
def jsSpliceStart (len : ℕ) (i : Int) : ℕ :=
  if i < 0 then ((len : Int) + i).toNat else min i.toNat len

/-- The outer, zero-deletion `splice` call of dnd-kit's `arrayMove`:
insert `x` into `rest` at the (normalised) position
`to < 0 ? newArray.length + to : to`. -/
def spliceInsert (rest : List Clip) (tgt : Int) (x : Clip) : List Clip :=
  rest.take (jsSpliceStart rest.length
      (if tgt < 0 then (rest.length : Int) + tgt else tgt)) ++
    x :: rest.drop (jsSpliceStart rest.length
      (if tgt < 0 then (rest.length : Int) + tgt else tgt))

/-- dnd-kit's `arrayMove(array, from, to)`:
`newArray.splice(to < 0 ? newArray.length + to : to, 0, newArray.splice(from, 1)[0])`
(`spliceInsert` is the outer zero-deletion splice call).  When the
normalised removal index is past the end, JS would splice nothing out and
insert `undefined`; that value is unrepresentable in `List Clip`, so that
branch (unreachable for the indices `handleDragEnd` produces on a
non-empty list) returns the list unchanged. -/
def arrayMove (l : List Clip) (fro tgt : Int) : List Clip :=
  match l.get? (jsSpliceStart l.length fro) with
  | none => l
  | some x =>
      spliceInsert
        (l.take (jsSpliceStart l.length fro) ++
          l.drop (jsSpliceStart l.length fro + 1)) tgt x

/-- `handleDragEnd` of the source: when the dragged id differs from the
dropped-on id (`active.id !== over?.id`, which also holds when there is no
`over` target), look both ids up with `findIndex` and apply `arrayMove`. -/
def handleDragEnd (clips : List Clip) (activeId : ℕ) (overId : Option ℕ) :
    List Clip :=
  if overId = some activeId then clips
  else
    arrayMove clips (jsFindIndex (fun c => c.id == activeId) clips)
      (match overId with
       | some o => jsFindIndex (fun c => c.id == o) clips
       | none => -1)

/-! ### Sequential playback scheduler
(`playTimeline`, `playNext`, `stopTimelinePlayback`, timer fires) -/

/-- A call made on the player bridge (`playerRef.current`). -/
inductive PlayerCall where
  | loadVideoById (videoId : String) (startSeconds : ℚ)
  | playVideo
  | pauseVideo
deriving DecidableEq

/-- State of the editor as the playback scheduler sees it.  `clips` is the
live React state; `snapshot` and `index` are the `clips` array and `index`
variable captured by the closure of the most recent `playTimeline`
invocation (the closure keeps the array value from that render, so later
`setClips` updates do not change it); `timer` is the pending single-shot
timeout's duration, `none` when no timeout is pending; `calls` is the trace
of player-bridge calls. -/
structure SchedulerState where
  clips : List Clip
  snapshot : List Clip
  index : ℕ
  isTimelinePlaying : Bool
  timer : Option ℚ
  calls : List PlayerCall
deriving DecidableEq

/-- `stopTimelinePlayback`: clear any pending timeout, pause the player,
clear the playing flag. -/
def stopTimelinePlayback (s : SchedulerState) : SchedulerState :=
  { s with timer := none,
           calls := s.calls ++ [PlayerCall.pauseVideo],
           isTimelinePlaying := false }

/-- One invocation of the closure `playNext`: past the end of the captured
array it clears the playing flag; otherwise it loads the cursor clip seeked
to its `start`, plays, and arms a timeout of `(end - start)` seconds. -/
def playNext (s : SchedulerState) : SchedulerState :=
  if h : s.index < s.snapshot.length then
    let clip := s.snapshot.get ⟨s.index, h⟩
    { s with
        calls := s.calls ++
          [PlayerCall.loadVideoById clip.videoId clip.start,
           PlayerCall.playVideo],
        timer := some (clip.«end» - clip.start) }
  else
    { s with isTimelinePlaying := false }

/-- `playTimeline`: returns unchanged when the collection is empty;
otherwise captures the clip list and `index = 0` in the closure, sets the
playing flag, runs the stop sequence, and starts `playNext`.  (Note the
source's ordering: `setIsTimelinePlaying(true)` is issued BEFORE
`stopTimelinePlayback()`, whose `setIsTimelinePlaying(false)` is processed
last.) -/
def playTimeline (s : SchedulerState) : SchedulerState :=
  if s.clips.isEmpty then s
  else
    let s1 := { s with isTimelinePlaying := true, index := 0,
                       snapshot := s.clips }
    playNext (stopTimelinePlayback s1)

/-- The pending timeout fires: `index += 1; playNext()`.  A no-op when no
timeout is pending (a cancelled timeout never fires). -/
def timerFire (s : SchedulerState) : SchedulerState :=
  match s.timer with
  | none => s
  | some _ => playNext { s with timer := none, index := s.index + 1 }

/-- A live edit while the scheduler may be running: `updateClip` rewrites
the React `clips` state but not the array value captured by the playback
closure. -/
def updateClipS (s : SchedulerState) (clipId : ℕ) (f : ClipField) (v : ℚ) :
    SchedulerState :=
  { s with clips := updateClip s.clips clipId f v }

/-! ### Helper lemmas for reordering -/

/-- Removing the element found at position `s` and consing it back in front
is a permutation. -/
theorem perm_take_drop (l : List Clip) (s : ℕ) (x : Clip)
    (h : l.get? s = some x) :
    l.Perm (x :: (l.take s ++ l.drop (s + 1))) := by
  induction l generalizing s with
  | nil => simp at h
  | cons a t ih =>
      cases s with
      | zero =>
          simp at h
          subst h
          simp
      | succ n =>
          simp only [List.get?_cons_succ] at h
          have h2 := ih n h
          simp only [List.take_succ_cons, List.drop_succ_cons]
          exact (List.Perm.cons a h2).trans (List.Perm.swap x a _)

/-- Inserting an element anywhere by `splice` is a permutation of consing
it in front. -/
theorem perm_spliceInsert (rest : List Clip) (tgt : Int) (x : Clip) :
    (spliceInsert rest tgt x).Perm (x :: rest) := by
  unfold spliceInsert
  have h := @List.perm_middle _ x
    (rest.take (jsSpliceStart rest.length
      (if tgt < 0 then (rest.length : Int) + tgt else tgt)))
    (rest.drop (jsSpliceStart rest.length
      (if tgt < 0 then (rest.length : Int) + tgt else tgt)))
  rwa [List.take_append_drop] at h

/-- `arrayMove` permutes the list whenever its normalised removal index is
in bounds. -/
theorem arrayMove_perm (l : List Clip) (fro tgt : Int)
    (h : jsSpliceStart l.length fro < l.length) :
    (arrayMove l fro tgt).Perm l := by
  have hg : l.get? (jsSpliceStart l.length fro) =
      some (l.get ⟨jsSpliceStart l.length fro, h⟩) := List.get?_eq_get h
  unfold arrayMove
  rw [hg]
  refine (perm_spliceInsert _ _ _).trans ?_
  exact (perm_take_drop l (jsSpliceStart l.length fro) _ hg).symm

/-- `findIndex` returns a value in `[-1, length)`. -/
theorem jsFindIndex_bounds (p : Clip → Bool) (l : List Clip) :
    -1 ≤ jsFindIndex p l ∧ jsFindIndex p l < l.length := by
  induction l with
  | nil => simp [jsFindIndex]
  | cons a t ih =>
      obtain ⟨ih1, ih2⟩ := ih
      simp only [jsFindIndex, List.length_cons]
      split
      · push_cast
        simp only [true_and]
        omega
      · split
        · push_cast
          simp only [true_and]
          omega
        · push_cast
          omega

/-! ### Scenario values used by the concrete theorems -/

/-- A confirmed clip of trimmed duration `3` seconds. -/
def clipA : Clip :=
  { id := 1, videoId := "v1", start := 0, audioStart := 1, audioEnd := 2,
    «end» := 3 }

/-- A confirmed clip of trimmed duration `5` seconds. -/
def clipB : Clip :=
  { id := 2, videoId := "v2", start := 5, audioStart := 6, audioEnd := 9,
    «end» := 10 }

/-- An idle editor holding the two confirmed clips, no pending timer, and
an empty player-call trace. -/
def playState : SchedulerState :=
  { clips := [clipA, clipB], snapshot := [], index := 0,
    isTimelinePlaying := false, timer := none, calls := [] }

/-- The draft of the spec's confirmation scenario. -/
def draftDemo : Clip :=
  { id := 7, videoId := "abc123", title := none, start := 5, audioStart := 6,
    audioEnd := 9, «end» := 12 }

/-- A state in mid-playback: one clip, playing, a `4`-second timer pending. -/
def pendingState : SchedulerState :=
  { clips := [clipA], snapshot := [clipA], index := 0,
    isTimelinePlaying := true, timer := some 4,
    calls := [PlayerCall.playVideo] }

/-- A state whose pending timer is about to fire past the last clip. -/
def lastFireState : SchedulerState :=
  { clips := [clipA], snapshot := [clipA], index := 0,
    isTimelinePlaying := true, timer := some 2, calls := [] }

/-! ### Claim theorems -/

/-- C1 counterexample: at zoom `1/2` (inside the claim's range
`[0.5, 5.0]`) and duration `60`, `viewRange = 120` and the computed
`rangeStart` is `-60 < 0`, so the claimed bound `0 ≤ rangeStart` fails. -/
theorem rangeStart_neg_at_zoom_half :
    viewRange 60 (1 / 2) = 120 ∧
    rangeStart 60 (1 / 2) 0 10 = -60 ∧
    rangeStart 60 (1 / 2) 0 10 < 0 := by
  refine ⟨by norm_num [viewRange], ?_, ?_⟩ <;> norm_num [rangeStart, viewRange]

/-- C1 (amended): for every zoom `z ∈ [1, 5]` and duration `D > 0`, the
visible window of `TimelineSlider` satisfies `viewRange = D / z`,
`0 ≤ rangeStart`, and `rangeStart + viewRange ≤ D`.  (For `z < 1`,
`viewRange > D` and `rangeStart = D - viewRange < 0`, though the right
bound still holds.) -/
theorem timeline_window_bounds (D z s e : ℚ) (hD : 0 < D) (hz1 : 1 ≤ z)
    (hz5 : z ≤ 5) :
    viewRange D z = D / z ∧ 0 ≤ rangeStart D z s e ∧
    rangeStart D z s e + viewRange D z ≤ D := by
  have hvr : viewRange D z ≤ D := div_le_self hD.le hz1
  refine ⟨rfl, ?_, ?_⟩
  · unfold rangeStart
    apply le_min
    · exact le_max_left 0 _
    · linarith
  · unfold rangeStart
    have h := min_le_right (max 0 ((s + e) / 2 - viewRange D z / 2))
      (D - viewRange D z)
    linarith

/-- C1 witness: the amended bounds at `D = 60`, `z = 1`, clip `[0, 10]`. -/
theorem timeline_window_bounds_witness :
    (0 : ℚ) < 60 ∧ (1 : ℚ) ≤ 1 ∧ (1 : ℚ) ≤ 5 ∧
    (viewRange 60 1 = 60 / 1 ∧ 0 ≤ rangeStart 60 1 0 10 ∧
      rangeStart 60 1 0 10 + viewRange 60 1 ≤ 60) :=
  ⟨by norm_num, by norm_num, by norm_num,
   timeline_window_bounds 60 1 0 10 (by norm_num) (by norm_num) (by norm_num)⟩

/-- C2 (code bug): invoking Play Timeline on a non-empty collection leaves
`isTimelinePlaying = false` even though playback is running (a timer is
armed), both from idle and for a re-entrant Play — the source issues
`setIsTimelinePlaying(true)` and THEN calls `stopTimelinePlayback()`, whose
`setIsTimelinePlaying(false)` wins, so the claimed Playing state is never
observable and the Stop toggle can never appear. -/
theorem playTimeline_leaves_flag_false :
    (playTimeline playState).isTimelinePlaying = false ∧
    (playTimeline playState).timer = some 3 ∧
    (playTimeline (playTimeline playState)).isTimelinePlaying = false := by
  refine ⟨rfl, ?_, rfl⟩
  simp [playTimeline, playState, clipA, clipB, playNext, stopTimelinePlayback]

/-- C3 counterexample: with clips of starts `0` and `5`, editing clip `2`'s
`start` to `99` while the first clip is playing does NOT affect the loop
iteration that reaches clip `2`: the fire after the edit still loads
`"v2"` seeked to `5`, and no `loadVideoById "v2" 99` call ever occurs. -/
theorem live_edit_invisible_to_run :
    (timerFire (updateClipS (playTimeline playState) 2 ClipField.start
        99)).calls =
      [PlayerCall.pauseVideo, PlayerCall.loadVideoById "v1" 0,
       PlayerCall.playVideo, PlayerCall.loadVideoById "v2" 5,
       PlayerCall.playVideo] ∧
    PlayerCall.loadVideoById "v2" 99 ∉
      (timerFire (updateClipS (playTimeline playState) 2 ClipField.start
        99)).calls := by
  constructor <;>
    simp [playTimeline, playState, clipA, clipB, playNext,
          stopTimelinePlayback, timerFire, updateClipS, updateClip, setField]

/-- C3 (amended): a field edit during playback never affects the current
run — it commutes with every timer fire, and leaves the captured snapshot,
the armed timer and the cursor untouched — and takes effect only when Play
Timeline is invoked again, which re-captures the edited collection. -/
theorem live_edit_applies_next_play (s : SchedulerState) (i : ℕ)
    (f : ClipField) (v : ℚ) (h : s.clips ≠ []) :
    timerFire (updateClipS s i f v) = updateClipS (timerFire s) i f v ∧
    (updateClipS s i f v).snapshot = s.snapshot ∧
    (updateClipS s i f v).timer = s.timer ∧
    (updateClipS s i f v).index = s.index ∧
    (playTimeline (updateClipS s i f v)).snapshot =
      updateClip s.clips i f v := by
  refine ⟨?_, rfl, rfl, rfl, ?_⟩
  · cases ht : s.timer with
    | none => simp [timerFire, updateClipS, ht]
    | some d =>
        simp only [timerFire, updateClipS, ht, playNext]
        split <;> rfl
  · have hne : (updateClip s.clips i f v).isEmpty = false := by
      cases hc : s.clips with
      | nil => exact absurd hc h
      | cons a t => simp [updateClip, hc]
    simp only [playTimeline, updateClipS, hne, Bool.false_eq_true, if_false]
    simp [playNext, stopTimelinePlayback]
    split <;> rfl

/-- C3 witness: the amended statement at the two-clip idle state, editing
clip `2`'s `start` to `99`. -/
theorem live_edit_applies_next_play_witness :
    playState.clips ≠ [] ∧
    (timerFire (updateClipS playState 2 ClipField.start 99) =
        updateClipS (timerFire playState) 2 ClipField.start 99 ∧
      (updateClipS playState 2 ClipField.start 99).snapshot =
        playState.snapshot ∧
      (updateClipS playState 2 ClipField.start 99).timer = playState.timer ∧
      (updateClipS playState 2 ClipField.start 99).index = playState.index ∧
      (playTimeline (updateClipS playState 2 ClipField.start 99)).snapshot =
        updateClip playState.clips 2 ClipField.start 99) :=
  ⟨by decide, live_edit_applies_next_play playState 2 ClipField.start 99
    (by decide)⟩

/-- C4: for a marker time `t` whose forward pixel offset
`x = ((t - rangeStart) / viewRange) * W` lies in `[0, W]` with `W > 0`
(and a proper window `viewRange > 0`), the drag-handler inverse
`rangeStart + (x / W) * viewRange` rounded to two decimals lands within
`0.01` of `t`. -/
theorem marker_drag_roundTrip (w rs vr t : ℚ) (hw : 0 < w) (hvr : 0 < vr)
    (hx0 : 0 ≤ markerX t rs vr w) (hxw : markerX t rs vr w ≤ w) :
    |dragToTime (markerX t rs vr w) w rs vr - t| ≤ 1 / 100 := by
  have key : rs + (markerX t rs vr w / w) * vr = t := by
    unfold markerX
    field_simp
    ring
  rw [dragToTime, key]
  unfold round2
  have h1 : (⌊t * 100 + 1 / 2⌋ : ℚ) ≤ t * 100 + 1 / 2 := Int.floor_le _
  have h2 : t * 100 + 1 / 2 - 1 < (⌊t * 100 + 1 / 2⌋ : ℚ) :=
    Int.sub_one_lt_floor _
  rw [abs_le]
  constructor <;> linarith

/-- C4 witness: the round trip at `W = 100`, window `[0, 60)`, `t = 30`. -/
theorem marker_drag_roundTrip_witness :
    (0 : ℚ) < 100 ∧ (0 : ℚ) < 60 ∧ 0 ≤ markerX 30 0 60 100 ∧
    markerX 30 0 60 100 ≤ 100 ∧
    |dragToTime (markerX 30 0 60 100) 100 0 60 - 30| ≤ 1 / 100 :=
  ⟨by norm_num, by norm_num, by norm_num [markerX], by norm_num [markerX],
   marker_drag_roundTrip 100 0 60 30 (by norm_num) (by norm_num)
     (by norm_num [markerX]) (by norm_num [markerX])⟩

/-- C5: confirming with a draft whose trimmed `videoId` is non-empty
appends exactly the draft, with `title` resolved from the lookup (falling
back to `"Untitled Video"` on failure or a missing/empty title), and clears
the draft; with no draft, or an empty trimmed `videoId`, collection and
draft are unchanged. -/
theorem confirmClip_append_spec (clips : List Clip) (draft : Option Clip)
    (lookup : Option String) :
    (∀ d, draft = some d → jsTrim d.videoId ≠ "" →
      confirmClip clips draft lookup =
        (clips ++ [{ d with title := some (resolveTitle lookup) }], none)) ∧
    (draft = none → confirmClip clips draft lookup = (clips, draft)) ∧
    (∀ d, draft = some d → jsTrim d.videoId = "" →
      confirmClip clips draft lookup = (clips, draft)) ∧
    (∀ t, t ≠ "" → resolveTitle (some t) = t) ∧
    resolveTitle none = "Untitled Video" := by
  refine ⟨?_, ?_, ?_, ?_, rfl⟩
  · intro d hd hne
    subst hd
    simp [confirmClip, hne]
  · intro hd
    subst hd
    rfl
  · intro d hd he
    subst hd
    simp [confirmClip, he]
  · intro t ht
    simp [resolveTitle, ht]

/-- C5 witness: the spec's scenario — an empty collection, a draft for
`"abc123"` with `start=5, audioStart=6, audioEnd=9, end=12`, and a stubbed
lookup returning `"Demo"`. -/
theorem confirmClip_append_spec_witness :
    confirmClip [] (some draftDemo) (some "Demo") =
      ([{ id := 7, videoId := "abc123", title := some "Demo", start := 5,
          audioStart := 6, audioEnd := 9, «end» := 12 }], none) := by
  have h := (confirmClip_append_spec [] (some draftDemo) (some "Demo")).1
    draftDemo rfl (by decide)
  simpa [draftDemo, resolveTitle] using h

/-- C6: a drag-end event on a non-empty collection only permutes the
collection — the resulting list is a permutation of the old one (so every
clip keeps all its field values) and the multiset of clip ids is
unchanged. -/
theorem handleDragEnd_is_permutation (clips : List Clip) (activeId : ℕ)
    (overId : Option ℕ) (hne : clips ≠ []) :
    (handleDragEnd clips activeId overId).Perm clips ∧
    ((handleDragEnd clips activeId overId).map Clip.id).Perm
      (clips.map Clip.id) := by
  have hp : (handleDragEnd clips activeId overId).Perm clips := by
    unfold handleDragEnd
    split
    · exact List.Perm.refl _
    · have hlen : 1 ≤ clips.length := by
        cases clips with
        | nil => exact absurd rfl hne
        | cons a t => simp
      apply arrayMove_perm
      have hb := jsFindIndex_bounds (fun c => c.id == activeId) clips
      unfold jsSpliceStart
      split <;> omega
  exact ⟨hp, hp.map Clip.id⟩

/-- C6 witness: dragging clip `1` onto clip `2` in the two-clip list. -/
theorem handleDragEnd_is_permutation_witness :
    [clipA, clipB] ≠ [] ∧
    ((handleDragEnd [clipA, clipB] 1 (some 2)).Perm [clipA, clipB] ∧
      ((handleDragEnd [clipA, clipB] 1 (some 2)).map Clip.id).Perm
        ([clipA, clipB].map Clip.id)) :=
  ⟨by decide, handleDragEnd_is_permutation [clipA, clipB] 1 (some 2)
    (by decide)⟩

/-- C7: sequential playback walks the list in order.  Concretely, with the
two clips of trimmed durations `3` and `5`: Play Timeline immediately loads
clip 1 seeked to its start and arms a `3`-second timer (no call for clip 2
yet); the first fire loads clip 2 seeked to its start and arms a `5`-second
timer; the second fire issues no further call, leaves no timer, and the
scheduler is idle.  In general a fire increments the cursor, going idle
when it reaches the collection length and repeating the load/play/arm
sequence for the new cursor clip otherwise. -/
theorem playback_walks_in_order :
    ((playTimeline playState).calls =
        [PlayerCall.pauseVideo, PlayerCall.loadVideoById "v1" 0,
         PlayerCall.playVideo] ∧
      (playTimeline playState).timer = some 3 ∧
      (timerFire (playTimeline playState)).calls =
        [PlayerCall.pauseVideo, PlayerCall.loadVideoById "v1" 0,
         PlayerCall.playVideo, PlayerCall.loadVideoById "v2" 5,
         PlayerCall.playVideo] ∧
      (timerFire (playTimeline playState)).timer = some 5 ∧
      (timerFire (timerFire (playTimeline playState))).calls =
        (timerFire (playTimeline playState)).calls ∧
      (timerFire (timerFire (playTimeline playState))).timer = none ∧
      (timerFire (timerFire (playTimeline playState))).isTimelinePlaying =
        false) ∧
    (∀ (s : SchedulerState) (d : ℚ), s.timer = some d →
      (timerFire s).index = s.index + 1 ∧
      (s.index + 1 ≥ s.snapshot.length →
        timerFire s = { s with timer := none, index := s.index + 1,
                               isTimelinePlaying := false }) ∧
      (∀ hlt : s.index + 1 < s.snapshot.length,
        timerFire s =
          { s with
              timer := some ((s.snapshot.get ⟨s.index + 1, hlt⟩).«end» -
                             (s.snapshot.get ⟨s.index + 1, hlt⟩).start),
              index := s.index + 1,
              calls := s.calls ++
                [PlayerCall.loadVideoById
                   (s.snapshot.get ⟨s.index + 1, hlt⟩).videoId
                   (s.snapshot.get ⟨s.index + 1, hlt⟩).start,
                 PlayerCall.playVideo] })) := by
  constructor
  · refine ⟨rfl, ?_, ?_, ?_, ?_, ?_, rfl⟩ <;>
      simp [playTimeline, playState, clipA, clipB, playNext,
            stopTimelinePlayback, timerFire] <;>
      norm_num
  · intro s d h
    refine ⟨?_, ?_, ?_⟩
    · simp [timerFire, h, playNext]
      split <;> rfl
    · intro hge
      simp [timerFire, h, playNext]
      omega
    · intro hlt
      simp [timerFire, h, playNext, hlt]

/-- C7 witness: a fire of a pending timer whose new cursor reaches the end
of the captured list makes the scheduler idle with the cursor
incremented. -/
theorem playback_walks_in_order_witness :
    lastFireState.timer = some 2 ∧
    (timerFire lastFireState).index = lastFireState.index + 1 ∧
    timerFire lastFireState =
      { lastFireState with timer := none, index := lastFireState.index + 1,
                           isTimelinePlaying := false } :=
  ⟨rfl, (playback_walks_in_order.2 lastFireState 2 rfl).1,
   (playback_walks_in_order.2 lastFireState 2 rfl).2.1 (by decide)⟩

/-- C8: Stop while a timer is pending cancels it (a later fire of that run
is a no-op, so no further `loadVideoById` ever occurs), commands the player
bridge to pause, and returns the scheduler to idle (`isPlaying = false`,
no pending timer). -/
theorem stop_cancels_pending_timer (s : SchedulerState) (d : ℚ)
    (h : s.timer = some d) :
    (stopTimelinePlayback s).timer = none ∧
    (stopTimelinePlayback s).isTimelinePlaying = false ∧
    (stopTimelinePlayback s).calls = s.calls ++ [PlayerCall.pauseVideo] ∧
    timerFire (stopTimelinePlayback s) = stopTimelinePlayback s := by
  refine ⟨rfl, rfl, rfl, ?_⟩
  simp [timerFire, stopTimelinePlayback]

/-- C8 witness: stopping the mid-playback state with a `4`-second timer
pending. -/
theorem stop_cancels_pending_timer_witness :
    pendingState.timer = some 4 ∧
    ((stopTimelinePlayback pendingState).timer = none ∧
      (stopTimelinePlayback pendingState).isTimelinePlaying = false ∧
      (stopTimelinePlayback pendingState).calls =
        pendingState.calls ++ [PlayerCall.pauseVideo] ∧
      timerFire (stopTimelinePlayback pendingState) =
        stopTimelinePlayback pendingState) :=
  ⟨rfl, stop_cancels_pending_timer pendingState 4 rfl⟩

/-- C9: for a clip id not present in the collection, `updateClip` and
`deleteClip` return the collection unchanged. -/
theorem missing_id_update_delete_noop (clips : List Clip) (clipId : ℕ)
    (f : ClipField) (v : ℚ) (h : ∀ c ∈ clips, c.id ≠ clipId) :
    updateClip clips clipId f v = clips ∧ deleteClip clips clipId = clips := by
  constructor
  · unfold updateClip
    induction clips with
    | nil => rfl
    | cons a t ih =>
        have ha : a.id ≠ clipId := h a (List.mem_cons_self a t)
        simp only [List.map_cons, if_neg ha, List.cons.injEq, true_and]
        exact ih (fun c hc => h c (List.mem_cons_of_mem a hc))
  · unfold deleteClip
    rw [List.filter_eq_self]
    intro c hc
    simpa using h c hc

/-- C9 witness: updating and deleting the absent id `3` in the two-clip
collection. -/
theorem missing_id_update_delete_noop_witness :
    (∀ c ∈ [clipA, clipB], c.id ≠ 3) ∧
    (updateClip [clipA, clipB] 3 ClipField.start 42 = [clipA, clipB] ∧
      deleteClip [clipA, clipB] 3 = [clipA, clipB]) :=
  ⟨by decide,
   missing_id_update_delete_noop [clipA, clipB] 3 ClipField.start 42
     (by decide)⟩

/-- C10: every draft `startDraft` actually creates carries the fixed
initial values `start = 0, audioStart = 2, audioEnd = 8, end = 10`, hence
satisfies `0 ≤ start ≤ audioStart ≤ audioEnd ≤ end`, and its `videoId` is
the entered identifier with surrounding whitespace trimmed. -/
theorem startDraft_initial_invariant (s : String) (now : ℕ) (d : Clip)
    (h : startDraft s now = some d) :
    d.start = 0 ∧ d.audioStart = 2 ∧ d.audioEnd = 8 ∧ d.«end» = 10 ∧
    0 ≤ d.start ∧ d.start ≤ d.audioStart ∧ d.audioStart ≤ d.audioEnd ∧
    d.audioEnd ≤ d.«end» ∧ d.videoId = jsTrim s := by
  unfold startDraft at h
  split at h
  · exact absurd h (by simp)
  · simp only [Option.some.injEq] at h
    subst h
    norm_num

/-- C10 witness: the draft created for the identifier `"  abc "`. -/
theorem startDraft_initial_invariant_witness :
    startDraft "  abc " 5 =
      some { id := 5, videoId := "abc", title := none, start := 0,
             audioStart := 2, audioEnd := 8, «end» := 10 } ∧
    ({ id := 5, videoId := "abc", title := none, start := 0,
       audioStart := 2, audioEnd := 8, «end» := 10 : Clip }.start = 0 ∧
      (0 : ℚ) ≤ 0 ∧ jsTrim "  abc " = "abc") := by
  have h : startDraft "  abc " 5 =
      some { id := 5, videoId := "abc", title := none, start := 0,
             audioStart := 2, audioEnd := 8, «end» := 10 } := by decide
  have h2 := startDraft_initial_invariant "  abc " 5 _ h
  exact ⟨h, h2.1, by norm_num, by decide⟩
